import Mathlib

/-!
# Verification of the hue-tui real-time state reconciliation subsystem

Shallow embedding of the pending-operation tracker (`internal/tui/pending.go`),
the light/room state model (`internal/models`), and the `LightUpdateMsg`
reconciliation handler (`internal/tui/messages/messages.go`) of the
angristan/hue-tui repository, together with proofs of the specified
properties.

Modelling conventions:
* Go `time.Time` instants become `Nat` ticks; `time.Now().After(t)` becomes
  `now > t`; the 5-second `pendingOpExpiry` becomes the abstract constant 5.
* Go `float64` values become `ℚ`.  The tracker only stores, converts and
  compares values (no float arithmetic is performed on the compared data), so
  ordering and equality of the rational images coincide with the float
  comparisons performed by the Go code on the inputs that occur.
* The Go `interface{}`-typed target values become the inductive `GoValue`,
  with one constructor per case of the `valuesEqual` type switch.
* The tracker's `map[string]*PendingOp` becomes the extensional map
  `String → Option PendingOp`; `delete` and insertion become pointwise update.
-/

namespace HueTui

/-- Direction of a pending change (`Direction` in pending.go):
`DirExact`, `DirUp`, `DirDown`. -/
inductive Direction where
  | dirExact : Direction
  | dirUp : Direction
  | dirDown : Direction
deriving DecidableEq, Repr

/-- A dynamically typed value as handled by the tracker.  `vBool` models Go
`bool`, `vInt` the integer kinds (`int`, `int64`, `uint16`, `uint8`),
`vFloat` the float kinds (`float64`, `float32`), and `vXY` the anonymous
`struct{ X, Y float64 }` used for chromaticity pairs. -/
inductive GoValue where
  | vBool : Bool → GoValue
  | vInt : Int → GoValue
  | vFloat : ℚ → GoValue
  | vXY : ℚ → ℚ → GoValue
deriving DecidableEq, Repr

/-- Function `toFloat64` from pending.go: numeric kinds convert to their value, any
other kind (bool, the XY struct) falls through and yields 0. -/
def toFloat64 : GoValue → ℚ
  | .vInt n => (n : ℚ)
  | .vFloat q => q
  | _ => 0

/-- Function `compareValues` from pending.go: compare the `toFloat64` images,
returning -1, 0 or 1. -/
def compareValues (a b : GoValue) : Int :=
  let af := toFloat64 a
  let bf := toFloat64 b
  if af < bf then -1
  else if af > bf then 1
  else 0

/-- Function `valuesEqual` from pending.go: type-switch on the first argument; bools
compare by `==` when the second is a bool; `int` and `float64` compare the
`toFloat64` images of both arguments; XY structs compare component-wise with
exact equality; every other combination returns false. -/
def valuesEqual (a b : GoValue) : Bool :=
  match a with
  | .vBool av =>
    match b with
    | .vBool bv => av == bv
    | _ => false
  | .vInt _ => toFloat64 a == toFloat64 b
  | .vFloat _ => toFloat64 a == toFloat64 b
  | .vXY ax ay =>
    match b with
    | .vXY bx bY => ax == bx && ay == bY
    | _ => false

/-- Constant `pendingOpExpiry = 5 * time.Second`, in abstract ticks of one second. -/
def pendingOpExpiry : Nat := 5

/-- Struct `PendingOp` from pending.go. -/
structure PendingOp where
  field : String
  target : GoValue
  direction : Direction
  expiresAt : Nat
deriving DecidableEq, Repr

/-- The tracker's `ops map[string]*PendingOp`, as an extensional map. -/
def Tracker : Type := String → Option PendingOp

/-- Constructor `NewPendingTracker`: the empty map. -/
def newPendingTracker : Tracker := fun _ => none

/-- The map key `lightID + ":" + field`. -/
def pendingKey (lightID field : String) : String := lightID ++ ":" ++ field

/-- Go `delete(t.ops, key)`. -/
def eraseKey (t : Tracker) (key : String) : Tracker :=
  fun k => if k = key then none else t k

/-- Go `t.ops[key] = op`. -/
def insertKey (t : Tracker) (key : String) (op : PendingOp) : Tracker :=
  fun k => if k = key then some op else t k

/-- Method `AddWithDirection` from pending.go: store a fresh op under
`lightID:field` expiring `pendingOpExpiry` after `now`. -/
def addWithDirection (t : Tracker) (lightID field : String) (target : GoValue)
    (dir : Direction) (now : Nat) : Tracker :=
  insertKey t (pendingKey lightID field)
    { field := field, target := target, direction := dir,
      expiresAt := now + pendingOpExpiry }

/-- Method `Add` from pending.go: `AddWithDirection` with `DirExact`. -/
def addPending (t : Tracker) (lightID field : String) (value : GoValue)
    (now : Nat) : Tracker :=
  addWithDirection t lightID field value .dirExact now

/-- Method `ShouldIgnore` from pending.go.  Returns the boolean result together with
the tracker after its side effects (deletions). -/
def shouldIgnore (t : Tracker) (lightID field : String) (value : GoValue)
    (now : Nat) : Bool × Tracker :=
  let key := pendingKey lightID field
  match t key with
  | none => (false, t)
  | some op =>
    if now > op.expiresAt then
      (false, eraseKey t key)
    else
      match op.direction with
      | .dirExact =>
        if valuesEqual op.target value then (true, eraseKey t key)
        else (false, t)
      | .dirUp =>
        let cmp := compareValues value op.target
        if cmp ≤ 0 then
          (true, if cmp = 0 then eraseKey t key else t)
        else
          (false, eraseKey t key)
      | .dirDown =>
        let cmp := compareValues value op.target
        if cmp ≥ 0 then
          (true, if cmp = 0 then eraseKey t key else t)
        else
          (false, eraseKey t key)

/-- Method `MatchesAndClear` from pending.go: alias for `ShouldIgnore`. -/
def matchesAndClear (t : Tracker) (lightID field : String) (value : GoValue)
    (now : Nat) : Bool × Tracker :=
  shouldIgnore t lightID field value now

/-- Modelled from the spec: the definition of `PendingTracker.HasPending` is
not among the provided sources (only its callers in messages.go and its tests
are).  Per the spec, `has_pending(light_id, field)` "exposes existence
(post-expiry-eviction) without consuming the entry": it returns false when no
entry exists; an entry whose expiry has passed is evicted and false is
returned; otherwise true is returned and the entry is left untouched. -/
def hasPending (t : Tracker) (lightID field : String) (now : Nat) :
    Bool × Tracker :=
  let key := pendingKey lightID field
  match t key with
  | none => (false, t)
  | some op =>
    if now > op.expiresAt then (false, eraseKey t key)
    else (true, t)

/-! ## Light / Color / Room state model (`internal/models`) -/

/-- Enum `ColorMode` from models: `ColorModeNone`, `ColorModeColorTemp`,
`ColorModeHS`, `ColorModeXY`. -/
inductive ColorMode where
  | cmNone : ColorMode
  | cmColorTemp : ColorMode
  | cmHS : ColorMode
  | cmXY : ColorMode
deriving DecidableEq, Repr

/-- Struct `Color` from models: hue 0-65535, saturation/brightness 0-254, mirek,
XY chromaticity, the live-mode tag, and the RGB cache bookkeeping. -/
structure Color where
  hue : Nat
  saturation : Nat
  brightness : Nat
  mirek : Nat
  x : ℚ
  y : ℚ
  mode : ColorMode
  cachedR : Nat
  cachedG : Nat
  cachedB : Nat
  cacheValid : Bool
deriving DecidableEq, Repr

/-- The zero value `models.Color{}` built by the handler when a light had no
color yet. -/
def zeroColor : Color :=
  { hue := 0, saturation := 0, brightness := 0, mirek := 0, x := 0, y := 0,
    mode := .cmNone, cachedR := 0, cachedG := 0, cachedB := 0,
    cacheValid := false }

/-- Method `Color.InvalidateCache`. -/
def invalidateCache (c : Color) : Color := { c with cacheValid := false }

/-- Struct `Light` from models. -/
structure Light where
  id : String
  name : String
  -- Go field `On` (`on` is reserved notation in Lean)
  isOn : Bool
  brightness : Nat
  reachable : Bool
  color : Option Color
  supportsColor : Bool
  supportsColorTemp : Bool
  roomID : String
  deviceID : String
deriving DecidableEq, Repr

/-- Method `Light.SetBrightnessPct`: clamp the percentage to [0,100], then store
`uint8(float64(pct)/100.0*254)`.  For integer `pct` in 0..100 the float
computation truncates to `pct*254/100` (the quotient is never within float
error of crossing an integer), so the Nat division is exact. -/
def setBrightnessPct (l : Light) (pct : Int) : Light :=
  let p : Int := if pct < 0 then 0 else if pct > 100 then 100 else pct
  { l with brightness := p.toNat * 254 / 100 }

/-- Struct `Room` from models. -/
structure Room where
  id : String
  name : String
  lights : List Light
  groupedLightID : String
  deviceIDs : List String
  allOn : Bool
  anyOn : Bool
deriving DecidableEq, Repr

/-- Method `Room.UpdateState`: an empty room gets `AllOn = AnyOn = false`;
otherwise `AllOn` starts true and is cleared by any off light, `AnyOn`
starts false and is set by any on light — i.e. `all` / `any` over the
member lights. -/
def updateState (r : Room) : Room :=
  if r.lights.isEmpty then { r with allOn := false, anyOn := false }
  else
    { r with allOn := r.lights.all (fun l => l.isOn),
             anyOn := r.lights.any (fun l => l.isOn) }

/-! ## Reconciliation handler (`messages.go`, `LightUpdateMsg` case) -/

/-- Struct `LightUpdateMsg` from messages: id plus four optional fields. -/
structure LightUpdateMsg where
  lightID : String
  -- Go field `On`
  isOn : Option Bool
  brightness : Option Int
  colorTemp : Option Int
  colorXY : Option (ℚ × ℚ)
deriving DecidableEq, Repr

/-- First light with the given id in a list (`range` + compare in Go). -/
def findInLights (ls : List Light) (id : String) : Option Light :=
  ls.find? (fun l => l.id == id)

/-- Method `Model.findLightByID`: scan rooms in order, lights in order, return the
first light whose ID matches. -/
def findLightByID (rooms : List Room) (id : String) : Option Light :=
  match rooms with
  | [] => none
  | r :: rest =>
    match findInLights r.lights id with
    | some l => some l
    | none => findLightByID rest id

/-- Replace the first light with the given id in a list by `nl`. -/
def replaceInLights (ls : List Light) (id : String) (nl : Light) :
    List Light :=
  match ls with
  | [] => []
  | l :: rest =>
    if l.id = id then nl :: rest else l :: replaceInLights rest id nl

/-- Value-semantics image of the Go pointer mutation: the light object the
handler mutates lives in the first room that contains a light with the
message's id; replace it there. -/
def replaceFirstLight (rooms : List Room) (id : String) (nl : Light) :
    List Room :=
  match rooms with
  | [] => []
  | r :: rest =>
    if r.lights.any (fun l => l.id == id) then
      { r with lights := replaceInLights r.lights id nl } :: rest
    else
      r :: replaceFirstLight rest id nl

/-- Reading `light.Color` with the `if light.Color == nil { light.Color =
&models.Color{} }` initialization. -/
def colorOrZero : Option Color → Color
  | some c => c
  | none => zeroColor

/-- The `msg.On` block of the `LightUpdateMsg` case (messages.go lines
570-578), acting on (light, tracker, updated). -/
def stepOn (msg : LightUpdateMsg) (now : Nat) (s : Light × Tracker × Bool) :
    Light × Tracker × Bool :=
  match msg.isOn with
  | none => s
  | some b =>
    let r := matchesAndClear s.2.1 msg.lightID "on" (.vBool b) now
    if r.1 then (s.1, r.2, s.2.2)
    else ({ s.1 with isOn := b }, r.2, true)

/-- The `msg.Brightness` block (messages.go lines 580-588). -/
def stepBrightness (msg : LightUpdateMsg) (now : Nat)
    (s : Light × Tracker × Bool) : Light × Tracker × Bool :=
  match msg.brightness with
  | none => s
  | some pct =>
    let r := matchesAndClear s.2.1 msg.lightID "brightness" (.vInt pct) now
    if r.1 then (s.1, r.2, s.2.2)
    else (setBrightnessPct s.1 pct, r.2, true)

/-- The `msg.ColorTemp` block (messages.go lines 594-615); `hasXY` is the
`hasPendingColorXY` probe taken before this block. -/
def stepColorTemp (msg : LightUpdateMsg) (now : Nat) (hasXY : Bool)
    (s : Light × Tracker × Bool) : Light × Tracker × Bool :=
  match msg.colorTemp with
  | none => s
  | some ct =>
    if ct < 153 ∨ ct > 500 then s
    else if hasXY then s
    else
      let r := matchesAndClear s.2.1 msg.lightID "color_temp" (.vInt ct) now
      if r.1 then (s.1, r.2, s.2.2)
      else
        let c' := invalidateCache
          { colorOrZero s.1.color with mirek := ct.toNat, mode := .cmColorTemp }
        ({ s.1 with color := some c' }, r.2, true)

/-- The `msg.ColorXY` block (messages.go lines 617-641); `hasXY`/`hasCT` are
the two `HasPending` probes taken before the color blocks. -/
def stepColorXY (msg : LightUpdateMsg) (now : Nat) (hasXY hasCT : Bool)
    (s : Light × Tracker × Bool) : Light × Tracker × Bool :=
  match msg.colorXY with
  | none => s
  | some xy =>
    if hasXY then
      let r := matchesAndClear s.2.1 msg.lightID "color_xy" (.vXY xy.1 xy.2) now
      (s.1, r.2, s.2.2)
    else if hasCT then s
    else
      let c' := invalidateCache
        { colorOrZero s.1.color with x := xy.1, y := xy.2, mode := .cmXY }
      ({ s.1 with color := some c' }, s.2.1, true)

/-- The per-field body of the `LightUpdateMsg` case of `Model.Update`
(messages.go lines 568-643): process `On`, `Brightness`, the two
`HasPending` probes, `ColorTemp` and `ColorXY` in source order, threading
the tracker and the mutated light, and accumulating the `updated` flag. -/
def applyFields (light : Light) (tr : Tracker) (msg : LightUpdateMsg)
    (now : Nat) : Light × Tracker × Bool :=
  let s2 := stepBrightness msg now (stepOn msg now (light, tr, false))
  let hXY := hasPending s2.2.1 msg.lightID "color_xy" now
  let hCT := hasPending hXY.2 msg.lightID "color_temp" now
  stepColorXY msg now hXY.1 hCT.1
    (stepColorTemp msg now hXY.1 (s2.1, hCT.2, s2.2.2))

/-- The reconciliation slice of the TUI model: the rooms and the pending
tracker. -/
structure Model where
  rooms : List Room
  pending : Tracker

/-- The `LightUpdateMsg` case of `Model.Update`: look the light up by id
(drop the message when absent), apply the fields, and when anything was
applied recompute `AllOn`/`AnyOn` of every room containing a light with
that id. -/
def handleLightUpdate (m : Model) (msg : LightUpdateMsg) (now : Nat) :
    Model :=
  match findLightByID m.rooms msg.lightID with
  | none => m
  | some light =>
    let (nl, tr, updated) := applyFields light m.pending msg now
    let rooms1 := replaceFirstLight m.rooms msg.lightID nl
    let rooms2 :=
      if updated then
        rooms1.map (fun r =>
          if r.lights.any (fun l => l.id == msg.lightID) then updateState r
          else r)
      else rooms1
    { rooms := rooms2, pending := tr }

/-! ## Predicates and concrete instances used by the theorems -/

/-- A key with no live entry (absent, or expired). -/
def noLive (t : Tracker) (key : String) (now : Nat) : Prop :=
  ∀ op, t key = some op → now > op.expiresAt

/-- The room-aggregate invariant as corrected for empty rooms: `AllOn` is
true iff the room has at least one light and every light is on (an empty
room has `AllOn = false`), and `AnyOn` is false iff every light is off. -/
def roomInv (r : Room) : Prop :=
  (r.allOn = true ↔ (r.lights ≠ [] ∧ ∀ l ∈ r.lights, l.isOn = true)) ∧
  (r.anyOn = false ↔ ∀ l ∈ r.lights, l.isOn = false)

instance (r : Room) : Decidable (roomInv r) := by
  unfold roomInv
  infer_instance

/-- Frame relation between a light before and after one update: a light
whose ID is not the message's is untouched. -/
def lightFrame (id : String) (l l' : Light) : Prop := l.id ≠ id → l' = l

/-- Frame relation between a room before and after one update: identity
fields are untouched, lights are related pointwise by `lightFrame`, and a
room containing no light with the message's ID is untouched entirely
(including its `AllOn`/`AnyOn` aggregates). -/
def roomFrame (id : String) (r r' : Room) : Prop :=
  r'.id = r.id ∧ r'.name = r.name ∧ r'.groupedLightID = r.groupedLightID ∧
  r'.deviceIDs = r.deviceIDs ∧
  List.Forall₂ (lightFrame id) r.lights r'.lights ∧
  ((∀ l ∈ r.lights, l.id ≠ id) → r' = r)

/-- A concrete color-capable light, initially off, used by the witnesses. -/
def lampA : Light :=
  { id := "A", name := "lamp-a", isOn := false, brightness := 100,
    reachable := true, color := none, supportsColor := true,
    supportsColorTemp := true, roomID := "r1", deviceID := "dev-a" }

/-- A second concrete light in the same room. -/
def lampB : Light := { lampA with id := "B", name := "lamp-b" }

/-- A concrete room holding both lights, flags as recomputed with both
lights off. -/
def room1 : Room :=
  { id := "r1", name := "Living", lights := [lampA, lampB],
    groupedLightID := "g1", deviceIDs := [], allOn := false, anyOn := false }

/-- A concrete room with no lights, flags as `UpdateState` leaves them. -/
def emptyRoom : Room :=
  { id := "r0", name := "Empty", lights := [], groupedLightID := "g0",
    deviceIDs := [], allOn := false, anyOn := false }

/-- A concrete model with an empty room and a two-light room, no pending
ops. -/
def sampleModel : Model :=
  { rooms := [emptyRoom, room1], pending := newPendingTracker }

/-- A concrete update switching lamp A on. -/
def msgOnA : LightUpdateMsg :=
  { lightID := "A", isOn := some true, brightness := none,
    colorTemp := none, colorXY := none }

/-! ## Helper lemmas about the tracker -/

theorem compareValues_nonpos_iff (a b : GoValue) :
    compareValues a b ≤ 0 ↔ toFloat64 a ≤ toFloat64 b := by
  unfold compareValues
  rcases lt_trichotomy (toFloat64 a) (toFloat64 b) with h | h | h
  · simp [h, le_of_lt h]
  · simp [h, lt_irrefl]
  · rw [if_neg (not_lt.mpr (le_of_lt h)), if_pos h]
    simp [not_le.mpr h]

theorem compareValues_eq_zero_iff (a b : GoValue) :
    compareValues a b = 0 ↔ toFloat64 a = toFloat64 b := by
  unfold compareValues
  rcases lt_trichotomy (toFloat64 a) (toFloat64 b) with h | h | h
  · simp [h, ne_of_lt h]
  · simp [h, lt_irrefl]
  · rw [if_neg (not_lt.mpr (le_of_lt h)), if_pos h]
    simp [Ne.symm (ne_of_lt h)]

theorem compareValues_nonneg_iff (a b : GoValue) :
    0 ≤ compareValues a b ↔ toFloat64 b ≤ toFloat64 a := by
  unfold compareValues
  rcases lt_trichotomy (toFloat64 a) (toFloat64 b) with h | h | h
  · simp [h, not_le.mpr h]
  · simp [h, lt_irrefl, le_of_eq h.symm]
  · rw [if_neg (not_lt.mpr (le_of_lt h)), if_pos h]
    simp [le_of_lt h]

theorem eraseKey_self (t : Tracker) (key : String) :
    eraseKey t key key = none := by simp [eraseKey]

theorem eraseKey_other (t : Tracker) (key k : String) (h : k ≠ key) :
    eraseKey t key k = t k := by simp [eraseKey, h]

/-! ## C1: directional suppression -/

/-- C1: for a non-expired pending op with direction `DirUp` (Increasing) and
target `t`, `ShouldIgnore` returns true when the incoming value is at most
the target, and the entry is removed iff the incoming value equals the
target; when the incoming value exceeds the target, the entry is deleted
and false is returned.  The mirror statements hold for `DirDown`
(Decreasing).  Values are compared through `toFloat64`, exactly as
`compareValues` does. -/
theorem shouldIgnore_directional (t : Tracker) (id f : String)
    (op : PendingOp) (v : GoValue) (now : Nat)
    (hop : t (pendingKey id f) = some op)
    (hlive : ¬ now > op.expiresAt) :
    (op.direction = .dirUp →
      (toFloat64 v ≤ toFloat64 op.target →
        (shouldIgnore t id f v now).1 = true ∧
        ((shouldIgnore t id f v now).2 (pendingKey id f) = none ↔
          toFloat64 v = toFloat64 op.target)) ∧
      (toFloat64 op.target < toFloat64 v →
        (shouldIgnore t id f v now).1 = false ∧
        (shouldIgnore t id f v now).2 (pendingKey id f) = none)) ∧
    (op.direction = .dirDown →
      (toFloat64 op.target ≤ toFloat64 v →
        (shouldIgnore t id f v now).1 = true ∧
        ((shouldIgnore t id f v now).2 (pendingKey id f) = none ↔
          toFloat64 v = toFloat64 op.target)) ∧
      (toFloat64 v < toFloat64 op.target →
        (shouldIgnore t id f v now).1 = false ∧
        (shouldIgnore t id f v now).2 (pendingKey id f) = none)) := by
  constructor
  · intro hdir
    constructor
    · intro hle
      have hcmp : compareValues v op.target ≤ 0 :=
        (compareValues_nonpos_iff v op.target).mpr hle
      simp only [shouldIgnore, hop, hdir, if_neg hlive, if_pos hcmp]
      refine ⟨trivial, ?_⟩
      by_cases h0 : compareValues v op.target = 0
      · simp [h0, eraseKey_self, (compareValues_eq_zero_iff v op.target).mp h0]
      · have : ¬ toFloat64 v = toFloat64 op.target := fun h =>
          h0 ((compareValues_eq_zero_iff v op.target).mpr h)
        simp [h0, hop, this]
    · intro hgt
      have hcmp : ¬ compareValues v op.target ≤ 0 := fun h =>
        absurd ((compareValues_nonpos_iff v op.target).mp h) (not_le.mpr hgt)
      simp only [shouldIgnore, hop, hdir, if_neg hlive, if_neg hcmp]
      exact ⟨trivial, eraseKey_self t _⟩
  · intro hdir
    constructor
    · intro hge
      have hcmp : 0 ≤ compareValues v op.target :=
        (compareValues_nonneg_iff v op.target).mpr hge
      simp only [shouldIgnore, hop, hdir, if_neg hlive, if_pos hcmp, ge_iff_le]
      refine ⟨trivial, ?_⟩
      by_cases h0 : compareValues v op.target = 0
      · simp [h0, eraseKey_self, (compareValues_eq_zero_iff v op.target).mp h0]
      · have : ¬ toFloat64 v = toFloat64 op.target := fun h =>
          h0 ((compareValues_eq_zero_iff v op.target).mpr h)
        simp [h0, hop, this]
    · intro hlt
      have hcmp : ¬ 0 ≤ compareValues v op.target := fun h =>
        absurd ((compareValues_nonneg_iff v op.target).mp h) (not_le.mpr hlt)
      simp only [shouldIgnore, hop, hdir, if_neg hlive, ge_iff_le,
        if_neg hcmp]
      exact ⟨trivial, eraseKey_self t _⟩

/-- Witness for C1: a concrete increasing brightness op with target 80 —
incoming 55 is ignored, incoming 85 is applied after erasing the entry. -/
theorem shouldIgnore_directional_witness :
    (shouldIgnore
      (addWithDirection newPendingTracker "l" "brightness" (.vInt 80)
        .dirUp 0) "l" "brightness" (.vInt 55) 1).1 = true ∧
    (shouldIgnore
      (addWithDirection newPendingTracker "l" "brightness" (.vInt 80)
        .dirUp 0) "l" "brightness" (.vInt 85) 1).1 = false := by
  have h := shouldIgnore_directional
    (addWithDirection newPendingTracker "l" "brightness" (.vInt 80) .dirUp 0)
    "l" "brightness"
    { field := "brightness", target := .vInt 80, direction := .dirUp,
      expiresAt := 5 } (.vInt 55) 1 (by decide) (by decide)
  have h' := shouldIgnore_directional
    (addWithDirection newPendingTracker "l" "brightness" (.vInt 80) .dirUp 0)
    "l" "brightness"
    { field := "brightness", target := .vInt 80, direction := .dirUp,
      expiresAt := 5 } (.vInt 85) 1 (by decide) (by decide)
  exact ⟨((h.1 rfl).1 (by decide)).1, ((h'.1 rfl).2 (by decide)).1⟩

/-! ## C3: exact-direction suppression -/

/-- C3: for a non-expired pending op with direction `DirExact`,
`ShouldIgnore` returns true and deletes the entry exactly when the incoming
value equals the target under `valuesEqual`; on a non-match it returns
false and the entry persists.  Consequently, after `Add(id,"on",true)`, the
first `ShouldIgnore(id,"on",true)` returns true and clears the entry, and a
second identical call returns false. -/
theorem shouldIgnore_exact (t : Tracker) (id f : String) (op : PendingOp)
    (v : GoValue) (now : Nat)
    (hop : t (pendingKey id f) = some op)
    (hlive : ¬ now > op.expiresAt)
    (hdir : op.direction = .dirExact) :
    ((shouldIgnore t id f v now).1 = valuesEqual op.target v ∧
     ((shouldIgnore t id f v now).2 (pendingKey id f) = none ↔
       valuesEqual op.target v = true) ∧
     (valuesEqual op.target v = false →
       (shouldIgnore t id f v now).2 (pendingKey id f) = some op)) ∧
    (∀ (t0 : Tracker) (id0 : String) (n0 n1 : Nat),
      ¬ n1 > n0 + pendingOpExpiry →
      (shouldIgnore (addPending t0 id0 "on" (.vBool true) n0)
        id0 "on" (.vBool true) n1).1 = true ∧
      (shouldIgnore (addPending t0 id0 "on" (.vBool true) n0)
        id0 "on" (.vBool true) n1).2 (pendingKey id0 "on") = none ∧
      (shouldIgnore
        ((shouldIgnore (addPending t0 id0 "on" (.vBool true) n0)
          id0 "on" (.vBool true) n1).2) id0 "on" (.vBool true) n1).1 =
        false) := by
  have hsi : shouldIgnore t id f v now =
      if valuesEqual op.target v then (true, eraseKey t (pendingKey id f))
      else (false, t) := by
    simp only [shouldIgnore, hop, hdir, if_neg hlive]
  constructor
  · by_cases heq : valuesEqual op.target v = true
    · rw [hsi, if_pos heq]
      refine ⟨heq.symm, by simp [eraseKey_self, heq], ?_⟩
      intro h
      rw [heq] at h
      exact Bool.noConfusion h
    · rw [Bool.not_eq_true] at heq
      rw [hsi, if_neg (by simp [heq])]
      exact ⟨heq.symm, by simp [hop, heq], fun _ => hop⟩
  · intro t0 id0 n0 n1 hn
    have hadd : (addPending t0 id0 "on" (.vBool true) n0)
        (pendingKey id0 "on") =
        some { field := "on", target := .vBool true, direction := .dirExact,
               expiresAt := n0 + pendingOpExpiry } := by
      simp [addPending, addWithDirection, insertKey]
    have h1 : shouldIgnore (addPending t0 id0 "on" (.vBool true) n0)
        id0 "on" (.vBool true) n1 =
        (true, eraseKey (addPending t0 id0 "on" (.vBool true) n0)
          (pendingKey id0 "on")) := by
      simp [shouldIgnore, hadd, if_neg hn, valuesEqual]
    refine ⟨by rw [h1], by rw [h1]; exact eraseKey_self _ _, ?_⟩
    rw [h1]
    simp [shouldIgnore, eraseKey_self]

/-- Witness for C3: the concrete boolean scenario, with the entry also
checked gone after the first call. -/
theorem shouldIgnore_exact_witness :
    (shouldIgnore (addPending newPendingTracker "light1" "on" (.vBool true) 0)
      "light1" "on" (.vBool true) 1).1 = true ∧
    (shouldIgnore
      ((shouldIgnore (addPending newPendingTracker "light1" "on"
          (.vBool true) 0) "light1" "on" (.vBool true) 1).2)
      "light1" "on" (.vBool true) 1).1 = false := by
  have h := shouldIgnore_exact
    (addPending newPendingTracker "light1" "on" (.vBool true) 0)
    "light1" "on"
    { field := "on", target := .vBool true, direction := .dirExact,
      expiresAt := 5 } (.vBool true) 1 (by decide) (by decide) rfl
  have h2 := h.2 newPendingTracker "light1" 0 1 (by decide)
  exact ⟨h2.1, h2.2.2⟩

/-! ## C4: overwrite of a pending op for the same key -/

/-- C4: a second registration for the same `(light_id, field)` key replaces
the first outright: the stored entry is exactly the second op with a fresh
`now + 5` expiry, and every subsequent `ShouldIgnore` observation for that
key (result and entry after the call) is independent of whatever tracker
state — in particular any earlier registration — was overwritten (`t`
versus `t'` quantify over all prior states, hence all prior sequences of
registrations). -/
theorem addWithDirection_overwrite (t t' : Tracker) (id f : String)
    (target : GoValue) (dir : Direction) (now : Nat) (v : GoValue)
    (laterNow : Nat) :
    (addWithDirection t id f target dir now) (pendingKey id f) =
      some { field := f, target := target, direction := dir,
             expiresAt := now + pendingOpExpiry } ∧
    (shouldIgnore (addWithDirection t id f target dir now) id f v
        laterNow).1 =
      (shouldIgnore (addWithDirection t' id f target dir now) id f v
        laterNow).1 ∧
    (shouldIgnore (addWithDirection t id f target dir now) id f v
        laterNow).2 (pendingKey id f) =
      (shouldIgnore (addWithDirection t' id f target dir now) id f v
        laterNow).2 (pendingKey id f) := by
  have hkey : ∀ (s : Tracker), (addWithDirection s id f target dir now)
      (pendingKey id f) =
      some { field := f, target := target, direction := dir,
             expiresAt := now + pendingOpExpiry } := by
    intro s; simp [addWithDirection, insertKey]
  refine ⟨hkey t, ?_, ?_⟩ <;>
  · simp only [shouldIgnore, hkey t, hkey t']
    split
    · simp [eraseKey_self]
    · split <;> split <;> (try split) <;>
        simp [eraseKey_self, hkey t, hkey t']

/-! ## C5: expiry and absence -/

/-- C5: an entry whose expiry is in the past makes `ShouldIgnore` return
false and evicts the entry as a side effect; when no entry exists for the
key at all, false is returned (and the tracker is untouched). -/
theorem shouldIgnore_expired_or_absent (t : Tracker) (id f : String)
    (v : GoValue) (now : Nat) :
    (∀ op, t (pendingKey id f) = some op → now > op.expiresAt →
      (shouldIgnore t id f v now).1 = false ∧
      (shouldIgnore t id f v now).2 (pendingKey id f) = none) ∧
    (t (pendingKey id f) = none →
      (shouldIgnore t id f v now).1 = false ∧
      (shouldIgnore t id f v now).2 = t) := by
  constructor
  · intro op hop hexp
    simp [shouldIgnore, hop, hexp, eraseKey_self]
  · intro hop
    simp [shouldIgnore, hop]

/-- Witness for C5: a concrete op expired at tick 3, probed at tick 10, and
a concrete empty tracker. -/
theorem shouldIgnore_expired_or_absent_witness :
    (shouldIgnore
      (insertKey newPendingTracker (pendingKey "l" "brightness")
        { field := "brightness", target := .vInt 80, direction := .dirUp,
          expiresAt := 3 }) "l" "brightness" (.vInt 70) 10).1 = false ∧
    (shouldIgnore
      (insertKey newPendingTracker (pendingKey "l" "brightness")
        { field := "brightness", target := .vInt 80, direction := .dirUp,
          expiresAt := 3 }) "l" "brightness" (.vInt 70) 10).2
      (pendingKey "l" "brightness") = none ∧
    (shouldIgnore newPendingTracker "l" "brightness" (.vInt 70) 10).1 =
      false := by
  have h := (shouldIgnore_expired_or_absent
    (insertKey newPendingTracker (pendingKey "l" "brightness")
      { field := "brightness", target := .vInt 80, direction := .dirUp,
        expiresAt := 3 }) "l" "brightness" (.vInt 70) 10).1
    { field := "brightness", target := .vInt 80, direction := .dirUp,
      expiresAt := 3 } (by decide) (by decide)
  have h' := (shouldIgnore_expired_or_absent newPendingTracker
    "l" "brightness" (.vInt 70) 10).2 rfl
  exact ⟨h.1, h.2, h'.1⟩

/-! ## C2: XY equality has no tolerance in the code -/

/-- C2 (code bug): the claim and the repository's own tests
(`TestValuesEqual_ColorXY_EpsilonComparison`,
`TestPendingTracker_ColorXY_ApproximateMatch` in the tui test file) expect
component-wise approximate XY equality with tolerance ~0.001–0.002, so that
a registered Exact target (0.1638, 0.0835) makes `ShouldIgnore` accept the
incoming (0.163766, 0.0835).  The `valuesEqual` in pending.go compares XY
components with exact equality, so the code returns false there — the
within-tolerance incoming pair is NOT ignored.  The out-of-tolerance pair
(0.41, 0.18) is (consistently) also not ignored, and an exactly equal pair
is. -/
theorem valuesEqual_xy_no_tolerance :
    (shouldIgnore
      (addPending newPendingTracker "light1" "color_xy"
        (.vXY (1638/10000) (835/10000)) 0)
      "light1" "color_xy" (.vXY (163766/1000000) (835/10000)) 1).1 =
      false ∧
    (shouldIgnore
      (addPending newPendingTracker "light1" "color_xy"
        (.vXY (1638/10000) (835/10000)) 0)
      "light1" "color_xy" (.vXY (41/100) (18/100)) 1).1 = false ∧
    (shouldIgnore
      (addPending newPendingTracker "light1" "color_xy"
        (.vXY (1638/10000) (835/10000)) 0)
      "light1" "color_xy" (.vXY (1638/10000) (835/10000)) 1).1 = true ∧
    valuesEqual (.vXY (1638/10000) (835/10000))
      (.vXY (163766/1000000) (835/10000)) = false := by
  have hx1 : ((1638 : ℚ)/10000) ≠ ((163766 : ℚ)/1000000) := by norm_num
  have hx2 : ((1638 : ℚ)/10000) ≠ ((41 : ℚ)/100) := by norm_num
  refine ⟨?_, ?_, ?_, ?_⟩
  · simp [shouldIgnore, addPending, addWithDirection, insertKey,
      pendingOpExpiry, valuesEqual, hx1]
  · simp [shouldIgnore, addPending, addWithDirection, insertKey,
      pendingOpExpiry, valuesEqual, hx2]
  · simp [shouldIgnore, addPending, addWithDirection, insertKey,
      pendingOpExpiry, valuesEqual]
  · simp [valuesEqual, hx1]

/-! ## Helper lemmas for the reconciliation handler -/

theorem pendingKey_ne_of_field_ne (id : String) {f g : String} (h : f ≠ g) :
    pendingKey id f ≠ pendingKey id g := by
  intro he
  apply h
  have hd := String.data_eq_of_eq he
  simp only [pendingKey, String.data_append] at hd
  exact String.ext (List.append_cancel_left hd)

/-- Probing `hasPending` on a live entry: true, tracker untouched. -/
theorem hasPending_live (t : Tracker) (id f : String) (op : PendingOp)
    (now : Nat) (hop : t (pendingKey id f) = some op)
    (hlive : ¬ now > op.expiresAt) :
    hasPending t id f now = (true, t) := by
  simp [hasPending, hop, hlive]

/-- Probing `hasPending` on a key with no live entry: false, and the tracker is
either untouched or has only that key erased. -/
theorem hasPending_dead (t : Tracker) (id f : String) (now : Nat)
    (h : noLive t (pendingKey id f) now) :
    (hasPending t id f now).1 = false ∧
    ((hasPending t id f now).2 = t ∨
      (hasPending t id f now).2 = eraseKey t (pendingKey id f)) := by
  unfold hasPending
  cases hop : t (pendingKey id f) with
  | none => simp [hop]
  | some op => simp [hop, h op hop]

/-- Calling `MatchesAndClear`/`ShouldIgnore` on a key with no live entry: false,
tracker either untouched or only that key erased. -/
theorem matchesAndClear_dead (t : Tracker) (id f : String) (v : GoValue)
    (now : Nat) (h : noLive t (pendingKey id f) now) :
    (matchesAndClear t id f v now).1 = false ∧
    ((matchesAndClear t id f v now).2 = t ∨
      (matchesAndClear t id f v now).2 = eraseKey t (pendingKey id f)) := by
  unfold matchesAndClear shouldIgnore
  cases hop : t (pendingKey id f) with
  | none => simp [hop]
  | some op => simp [hop, h op hop]

/-- Erasing a key keeps `noLive` at every key. -/
theorem noLive_eraseKey (t : Tracker) (key k : String) (now : Nat)
    (h : noLive t k now) : noLive (eraseKey t key) k now := by
  intro op hop
  by_cases hk : k = key
  · simp [eraseKey, hk] at hop
  · rw [eraseKey_other t key k hk] at hop
    exact h op hop

/-- Erasing another key preserves a live entry. -/
theorem eraseKey_preserves (t : Tracker) (key k : String) (h : k ≠ key) :
    eraseKey t key k = t k := eraseKey_other t key k h

theorem findInLights_id (ls : List Light) (id : String) (l : Light)
    (h : findInLights ls id = some l) : l.id = id := by
  have := List.find?_some h
  simpa using this

theorem findInLights_any (ls : List Light) (id : String) (l : Light)
    (h : findInLights ls id = some l) :
    ls.any (fun l' => l'.id == id) = true := by
  have hmem := List.mem_of_find?_eq_some h
  have hid := findInLights_id ls id l h
  exact List.any_eq_true.mpr ⟨l, hmem, by simp [hid]⟩

theorem findInLights_none_any (ls : List Light) (id : String)
    (h : findInLights ls id = none) :
    ls.any (fun l' => l'.id == id) = false := by
  rw [List.any_eq_false]
  intro l hl
  have := List.find?_eq_none.mp h l hl
  simpa using this

theorem findLightByID_id (rooms : List Room) (id : String) (l : Light)
    (h : findLightByID rooms id = some l) : l.id = id := by
  induction rooms with
  | nil => simp [findLightByID] at h
  | cons r rest ih =>
    unfold findLightByID at h
    cases hf : findInLights r.lights id with
    | some l' =>
      rw [hf] at h
      cases h
      exact findInLights_id _ _ _ hf
    | none =>
      rw [hf] at h
      exact ih h

theorem replaceInLights_self (ls : List Light) (id : String) (l : Light)
    (h : findInLights ls id = some l) : replaceInLights ls id l = ls := by
  induction ls with
  | nil => simp [findInLights] at h
  | cons l0 rest ih =>
    unfold findInLights at h
    rw [List.find?_cons] at h
    by_cases h0 : l0.id = id
    · simp only [h0, beq_self_eq_true] at h
      cases h
      simp [replaceInLights, h0]
    · have hb : (l0.id == id) = false := by simp [h0]
      rw [hb] at h
      unfold replaceInLights
      rw [if_neg h0]
      rw [ih h]

theorem replaceFirstLight_self (rooms : List Room) (id : String) (l : Light)
    (h : findLightByID rooms id = some l) :
    replaceFirstLight rooms id l = rooms := by
  induction rooms with
  | nil => rfl
  | cons r rest ih =>
    unfold findLightByID at h
    cases hf : findInLights r.lights id with
    | some l' =>
      rw [hf] at h
      cases h
      unfold replaceFirstLight
      rw [if_pos (findInLights_any _ _ _ hf),
        replaceInLights_self _ _ _ hf]
    | none =>
      rw [hf] at h
      unfold replaceFirstLight
      rw [if_neg (by simp [findInLights_none_any _ _ hf]), ih h]

theorem findInLights_replace (ls : List Light) (id : String) (l nl : Light)
    (h : findInLights ls id = some l) (hnl : nl.id = id) :
    findInLights (replaceInLights ls id nl) id = some nl := by
  induction ls with
  | nil => simp [findInLights] at h
  | cons l0 rest ih =>
    unfold findInLights at h ⊢
    rw [List.find?_cons] at h
    by_cases h0 : l0.id = id
    · simp only [replaceInLights, if_pos h0, List.find?_cons, hnl,
        beq_self_eq_true]
    · have hb : (l0.id == id) = false := by simp [h0]
      rw [hb] at h
      simp only [replaceInLights, if_neg h0, List.find?_cons, hb]
      exact ih h

theorem findLightByID_replace (rooms : List Room) (id : String)
    (l nl : Light) (h : findLightByID rooms id = some l) (hnl : nl.id = id) :
    findLightByID (replaceFirstLight rooms id nl) id = some nl := by
  induction rooms with
  | nil => simp [findLightByID] at h
  | cons r rest ih =>
    unfold findLightByID at h
    cases hf : findInLights r.lights id with
    | some l' =>
      rw [hf] at h
      unfold replaceFirstLight
      rw [if_pos (findInLights_any _ _ _ hf)]
      unfold findLightByID
      rw [findInLights_replace _ _ _ _ hf hnl]
    | none =>
      rw [hf] at h
      unfold replaceFirstLight
      rw [if_neg (by simp [findInLights_none_any _ _ hf])]
      unfold findLightByID
      rw [hf]
      exact ih h

theorem replaceInLights_any (ls : List Light) (id : String) (nl : Light)
    (h : ls.any (fun l' => l'.id == id) = true) (hnl : nl.id = id) :
    (replaceInLights ls id nl).any (fun l' => l'.id == id) = true := by
  induction ls with
  | nil => simp at h
  | cons l0 rest ih =>
    unfold replaceInLights
    by_cases h0 : l0.id = id
    · rw [if_pos h0]
      simp [hnl]
    · rw [if_neg h0]
      rw [List.any_cons] at h ⊢
      have hb : (l0.id == id) = false := by simp [h0]
      rw [hb] at h ⊢
      simp only [Bool.false_or] at h ⊢
      exact ih h

theorem forall_ne_any_false (ls : List Light) (id : String)
    (h : ∀ l ∈ ls, l.id ≠ id) :
    ls.any (fun l' => l'.id == id) = false := by
  rw [List.any_eq_false]
  intro l hl
  simp [h l hl]

theorem updateState_lights (r : Room) : (updateState r).lights = r.lights := by
  unfold updateState
  split <;> rfl

theorem findLightByID_congr_lights (rooms : List Room)
    (g : Room → Room) (hg : ∀ r, (g r).lights = r.lights) (id : String) :
    findLightByID (rooms.map g) id = findLightByID rooms id := by
  induction rooms with
  | nil => rfl
  | cons r rest ih =>
    simp only [List.map_cons]
    unfold findLightByID
    rw [hg r]
    cases findInLights r.lights id with
    | some l => rfl
    | none => exact ih

theorem stepOn_id (msg : LightUpdateMsg) (now : Nat)
    (s : Light × Tracker × Bool) : (stepOn msg now s).1.id = s.1.id := by
  unfold stepOn
  cases msg.isOn with
  | none => rfl
  | some b => dsimp only; split <;> rfl

theorem stepBrightness_id (msg : LightUpdateMsg) (now : Nat)
    (s : Light × Tracker × Bool) :
    (stepBrightness msg now s).1.id = s.1.id := by
  unfold stepBrightness
  cases msg.brightness with
  | none => rfl
  | some pct => dsimp only; split <;> simp [setBrightnessPct]

theorem stepColorTemp_id (msg : LightUpdateMsg) (now : Nat) (hasXY : Bool)
    (s : Light × Tracker × Bool) :
    (stepColorTemp msg now hasXY s).1.id = s.1.id := by
  unfold stepColorTemp
  cases msg.colorTemp with
  | none => rfl
  | some ct => dsimp only; split <;> (try split) <;> (try split) <;> rfl

theorem stepColorXY_id (msg : LightUpdateMsg) (now : Nat) (hasXY hasCT : Bool)
    (s : Light × Tracker × Bool) :
    (stepColorXY msg now hasXY hasCT s).1.id = s.1.id := by
  unfold stepColorXY
  cases msg.colorXY with
  | none => rfl
  | some xy => dsimp only; split <;> (try split) <;> rfl

theorem stepOn_not_upd (msg : LightUpdateMsg) (now : Nat)
    (s : Light × Tracker × Bool) (h : (stepOn msg now s).2.2 = false) :
    (stepOn msg now s).1 = s.1 ∧ s.2.2 = false := by
  unfold stepOn at h ⊢
  cases hm : msg.isOn with
  | none => rw [hm] at h; exact ⟨rfl, h⟩
  | some b =>
    rw [hm] at h
    dsimp only at h ⊢
    by_cases hr : (matchesAndClear s.2.1 msg.lightID "on" (.vBool b) now).1
      = true
    · rw [if_pos hr] at h ⊢; exact ⟨rfl, h⟩
    · rw [if_neg hr] at h; exact absurd h (by simp)

theorem stepBrightness_not_upd (msg : LightUpdateMsg) (now : Nat)
    (s : Light × Tracker × Bool)
    (h : (stepBrightness msg now s).2.2 = false) :
    (stepBrightness msg now s).1 = s.1 ∧ s.2.2 = false := by
  unfold stepBrightness at h ⊢
  cases hm : msg.brightness with
  | none => rw [hm] at h; exact ⟨rfl, h⟩
  | some pct =>
    rw [hm] at h
    dsimp only at h ⊢
    by_cases hr : (matchesAndClear s.2.1 msg.lightID "brightness"
      (.vInt pct) now).1 = true
    · rw [if_pos hr] at h ⊢; exact ⟨rfl, h⟩
    · rw [if_neg hr] at h; exact absurd h (by simp)

theorem stepColorTemp_not_upd (msg : LightUpdateMsg) (now : Nat)
    (hasXY : Bool) (s : Light × Tracker × Bool)
    (h : (stepColorTemp msg now hasXY s).2.2 = false) :
    (stepColorTemp msg now hasXY s).1 = s.1 ∧ s.2.2 = false := by
  unfold stepColorTemp at h ⊢
  cases hm : msg.colorTemp with
  | none => rw [hm] at h; exact ⟨rfl, h⟩
  | some ct =>
    rw [hm] at h
    dsimp only at h ⊢
    by_cases hc : ct < 153 ∨ ct > 500
    · rw [if_pos hc] at h ⊢; exact ⟨rfl, h⟩
    · rw [if_neg hc] at h ⊢
      by_cases hx : hasXY = true
      · rw [if_pos hx] at h ⊢; exact ⟨rfl, h⟩
      · rw [if_neg hx] at h ⊢
        by_cases hr : (matchesAndClear s.2.1 msg.lightID "color_temp"
          (.vInt ct) now).1 = true
        · rw [if_pos hr] at h ⊢; exact ⟨rfl, h⟩
        · rw [if_neg hr] at h; exact absurd h (by simp)

theorem stepColorXY_not_upd (msg : LightUpdateMsg) (now : Nat)
    (hasXY hasCT : Bool) (s : Light × Tracker × Bool)
    (h : (stepColorXY msg now hasXY hasCT s).2.2 = false) :
    (stepColorXY msg now hasXY hasCT s).1 = s.1 ∧ s.2.2 = false := by
  unfold stepColorXY at h ⊢
  cases hm : msg.colorXY with
  | none => rw [hm] at h; exact ⟨rfl, h⟩
  | some xy =>
    rw [hm] at h
    dsimp only at h ⊢
    by_cases hx : hasXY = true
    · rw [if_pos hx] at h ⊢; exact ⟨rfl, h⟩
    · rw [if_neg hx] at h ⊢
      by_cases hct : hasCT = true
      · rw [if_pos hct] at h ⊢; exact ⟨rfl, h⟩
      · rw [if_neg hct] at h; exact absurd h (by simp)

theorem applyFields_id (light : Light) (tr : Tracker) (msg : LightUpdateMsg)
    (now : Nat) : (applyFields light tr msg now).1.id = light.id := by
  simp only [applyFields]
  rw [stepColorXY_id, stepColorTemp_id]
  dsimp only
  rw [stepBrightness_id, stepOn_id]

theorem applyFields_not_upd (light : Light) (tr : Tracker)
    (msg : LightUpdateMsg) (now : Nat)
    (h : (applyFields light tr msg now).2.2 = false) :
    (applyFields light tr msg now).1 = light := by
  simp only [applyFields] at h ⊢
  obtain ⟨h1, h2⟩ := stepColorXY_not_upd _ _ _ _ _ h
  obtain ⟨h3, h4⟩ := stepColorTemp_not_upd _ _ _ _ h2
  rw [h1, h3]
  dsimp only at h4 ⊢
  obtain ⟨h5, h6⟩ := stepBrightness_not_upd _ _ _ h4
  obtain ⟨h7, _⟩ := stepOn_not_upd _ _ _ h6
  rw [h5, h7]

/-! ## C9: unknown light id -/

/-- C9: when the update's resource id matches no loaded light, the handler
returns the model unchanged — no error is raised (the handler is a total
function), no field is applied, and every light and room keeps its state;
processing simply continues with the next message. -/
theorem handleLightUpdate_unknown_id (m : Model) (msg : LightUpdateMsg)
    (now : Nat) (h : findLightByID m.rooms msg.lightID = none) :
    handleLightUpdate m msg now = m := by
  unfold handleLightUpdate
  rw [h]

/-- Witness for C9: an update for the unknown id `"Z"` leaves the concrete
sample model untouched. -/
theorem handleLightUpdate_unknown_id_witness :
    handleLightUpdate sampleModel { msgOnA with lightID := "Z" } 0 =
      sampleModel :=
  handleLightUpdate_unknown_id sampleModel { msgOnA with lightID := "Z" } 0
    (by decide)

/-! ## C8: room aggregates -/

/-- Recomputing with `UpdateState` always establishes the (empty-room-corrected) aggregate
invariant. -/
theorem roomInv_updateState (r : Room) : roomInv (updateState r) := by
  unfold updateState roomInv
  by_cases hempty : r.lights.isEmpty
  · rw [if_pos hempty]
    have : r.lights = [] := List.isEmpty_iff.mp hempty
    simp [this]
  · rw [if_neg hempty]
    have hne : r.lights ≠ [] := by
      intro hc
      exact hempty (by simp [hc])
    constructor
    · simp only [List.all_eq_true]
      constructor
      · intro hall
        exact ⟨hne, hall⟩
      · intro ⟨_, hall⟩
        exact hall
    · simp only [List.any_eq_false]
      constructor
      · intro hnone l hl
        simpa using hnone l hl
      · intro hall l hl
        simp [hall l hl]

/-- Every room of `replaceFirstLight` is either an original room or holds a
light with the replaced id (when the new light carries that id). -/
theorem mem_replaceFirstLight (rooms : List Room) (id : String) (nl : Light)
    (hnl : nl.id = id) (r : Room) (hr : r ∈ replaceFirstLight rooms id nl) :
    r ∈ rooms ∨ r.lights.any (fun l => l.id == id) = true := by
  induction rooms with
  | nil => simp [replaceFirstLight] at hr
  | cons r0 rest ih =>
    unfold replaceFirstLight at hr
    by_cases hany : r0.lights.any (fun l => l.id == id) = true
    · rw [if_pos hany] at hr
      rcases List.mem_cons.mp hr with hhead | htail
      · right
        rw [hhead]
        exact replaceInLights_any r0.lights id nl hany hnl
      · exact Or.inl (List.mem_cons_of_mem r0 htail)
    · rw [if_neg hany] at hr
      rcases List.mem_cons.mp hr with hhead | htail
      · exact Or.inl (by rw [hhead]; exact List.mem_cons_self r0 rest)
      · rcases ih htail with h1 | h2
        · exact Or.inl (List.mem_cons_of_mem r0 h1)
        · exact Or.inr h2

/-- C8 counterexample: as stated — with the biconditional required to hold
for every room including empty ones — the property fails on the code: after
the accepted update switching lamp A on, the empty room has `AllOn = false`
while "every light in the room is on" holds vacuously. -/
theorem roomAggregate_empty_counterexample :
    ¬ (∀ r ∈ (handleLightUpdate sampleModel msgOnA 0).rooms,
        ((r.allOn = true ↔ ∀ l ∈ r.lights, l.isOn = true) ∧
         (r.anyOn = false ↔ ∀ l ∈ r.lights, l.isOn = false))) := by
  decide

/-- C8 (amended): after any handled update, every room that satisfied the
aggregate invariant before still satisfies it, where the invariant reads:
`AllOn = true` iff the room is nonempty and every light is on (an empty
room keeps `AllOn = false`), and `AnyOn = false` iff every light is off. -/
theorem roomAggregates_preserved (m : Model) (msg : LightUpdateMsg)
    (now : Nat) (hinv : ∀ r ∈ m.rooms, roomInv r) :
    ∀ r ∈ (handleLightUpdate m msg now).rooms, roomInv r := by
  unfold handleLightUpdate
  cases hfind : findLightByID m.rooms msg.lightID with
  | none => exact hinv
  | some light =>
    dsimp only
    have hid : (applyFields light m.pending msg now).1.id = msg.lightID := by
      rw [applyFields_id]
      exact findLightByID_id m.rooms msg.lightID light hfind
    cases hupd : (applyFields light m.pending msg now).2.2 with
    | false =>
      rw [if_neg (by simp [hupd])]
      have hnl : (applyFields light m.pending msg now).1 = light :=
        applyFields_not_upd light m.pending msg now hupd
      rw [hnl, replaceFirstLight_self m.rooms msg.lightID light hfind]
      exact hinv
    | true =>
      rw [if_pos (by simp [hupd])]
      intro r hr
      rcases List.mem_map.mp hr with ⟨r1, hr1, hrr⟩
      by_cases hany : r1.lights.any (fun l => l.id == msg.lightID) = true
      · rw [← hrr, if_pos hany]
        exact roomInv_updateState r1
      · rw [← hrr, if_neg hany]
        rcases mem_replaceFirstLight m.rooms msg.lightID _ hid r1 hr1 with
          horig | hhas
        · exact hinv r1 horig
        · exact absurd hhas hany

/-- Witness for C8 (amended): the concrete sample model satisfies the
invariant, and so does the model after the accepted update that switches
lamp A on. -/
theorem roomAggregates_preserved_witness :
    (∀ r ∈ sampleModel.rooms, roomInv r) ∧
    (∀ r ∈ (handleLightUpdate sampleModel msgOnA 0).rooms, roomInv r) :=
  ⟨by decide,
   roomAggregates_preserved sampleModel msgOnA 0 (by decide)⟩

/-! ## Shared lemmas for the color-field claims -/

theorem hasPending_snd_cases (t : Tracker) (id f : String) (now : Nat) :
    (hasPending t id f now).2 = t ∨
    (hasPending t id f now).2 = eraseKey t (pendingKey id f) := by
  unfold hasPending
  cases h : t (pendingKey id f) with
  | none => simp [h]
  | some op => simp only [h]; split <;> simp

/-- The conditional `UpdateState` pass over the rooms preserves every
room's light list. -/
theorem condUpdate_lights (id : String) (r : Room) :
    (if r.lights.any (fun l => l.id == id) then updateState r
      else r).lights = r.lights := by
  by_cases h : r.lights.any (fun l => l.id == id) = true
  · rw [if_pos h, updateState_lights]
  · rw [if_neg h]

/-- A message carrying only an in-range color-temperature value, applied
while neither color key has a live pending entry, sets the found light's
mirek and switches it to color-temperature mode. -/
theorem applyColorTemp_in_range (m : Model) (id : String) (ct : Int)
    (now : Nat)
    (hxy : noLive m.pending (pendingKey id "color_xy") now)
    (hct : noLive m.pending (pendingKey id "color_temp") now)
    (l : Light) (hfind : findLightByID m.rooms id = some l)
    (h153 : 153 ≤ ct) (h500 : ct ≤ 500) :
    findLightByID (handleLightUpdate m
      { lightID := id, isOn := none, brightness := none,
        colorTemp := some ct, colorXY := none } now).rooms id =
      some { l with color := some (invalidateCache
        { (colorOrZero l.color) with
          mirek := ct.toNat, mode := .cmColorTemp }) } := by
  obtain ⟨hx1, hx2⟩ := hasPending_dead m.pending id "color_xy" now hxy
  have hctKey : noLive ((hasPending m.pending id "color_xy" now).2)
      (pendingKey id "color_temp") now := by
    rcases hx2 with h | h <;> rw [h]
    · exact hct
    · exact noLive_eraseKey _ _ _ _ hct
  have hmcKey : noLive ((hasPending
      ((hasPending m.pending id "color_xy" now).2) id "color_temp" now).2)
      (pendingKey id "color_temp") now := by
    rcases hasPending_snd_cases ((hasPending m.pending id "color_xy" now).2)
      id "color_temp" now with h | h <;> rw [h]
    · exact hctKey
    · exact noLive_eraseKey _ _ _ _ hctKey
  obtain ⟨hm1, _⟩ := matchesAndClear_dead _ id "color_temp" (.vInt ct) now
    hmcKey
  have hrange : ¬ (ct < 153 ∨ ct > 500) := by omega
  have happ : applyFields l m.pending
      { lightID := id, isOn := none, brightness := none,
        colorTemp := some ct, colorXY := none } now =
      ({ l with color := some (invalidateCache
          { (colorOrZero l.color) with
            mirek := ct.toNat, mode := .cmColorTemp }) },
        (matchesAndClear ((hasPending
          ((hasPending m.pending id "color_xy" now).2) id "color_temp"
          now).2) id "color_temp" (.vInt ct) now).2, true) := by
    simp only [applyFields, stepOn, stepBrightness, stepColorTemp,
      stepColorXY]
    rw [if_neg hrange, hx1]
    rw [if_neg (by simp), if_neg (by simp [hm1])]
  unfold handleLightUpdate
  rw [hfind]
  dsimp only
  rw [happ]
  dsimp only
  rw [if_pos rfl]
  have hnl : ({ l with color := some (invalidateCache
      { (colorOrZero l.color) with
        mirek := ct.toNat, mode := .cmColorTemp }) } : Light).id = id := by
    simpa using findLightByID_id m.rooms id l hfind
  rw [findLightByID_congr_lights _ _ (fun r => condUpdate_lights id r)]
  exact findLightByID_replace m.rooms id l _ hfind hnl

/-- Probing `hasPending` can only answer true by leaving the tracker untouched. -/
theorem hasPending_true_snd (t : Tracker) (id f : String) (now : Nat)
    (h : (hasPending t id f now).1 = true) :
    (hasPending t id f now).2 = t := by
  unfold hasPending at h ⊢
  cases hop : t (pendingKey id f) with
  | none => simp [hop] at h
  | some op =>
    simp only [hop] at h ⊢
    by_cases he : now > op.expiresAt
    · rw [if_pos he] at h
      exact absurd h (by simp)
    · rw [if_neg he]

/-! ## C7: color-temperature range policy -/

/-- C7: an incoming color-temperature outside the inclusive range
[153, 500] is dropped without touching any light or room state and without
raising an error (the handler is total), regardless of any pending
operation; the boundary values 153 and 500 are not dropped by this rule —
with no live pending color ops they are applied to the light. -/
theorem colorTemp_range_policy (m : Model) (id : String) (ct : Int)
    (now : Nat) :
    ((ct < 153 ∨ ct > 500) →
      (handleLightUpdate m
        { lightID := id, isOn := none, brightness := none,
          colorTemp := some ct, colorXY := none } now).rooms = m.rooms) ∧
    ((ct = 153 ∨ ct = 500) →
      noLive m.pending (pendingKey id "color_xy") now →
      noLive m.pending (pendingKey id "color_temp") now →
      ∀ l, findLightByID m.rooms id = some l →
      findLightByID (handleLightUpdate m
        { lightID := id, isOn := none, brightness := none,
          colorTemp := some ct, colorXY := none } now).rooms id =
        some { l with color := some (invalidateCache
          { (colorOrZero l.color) with
            mirek := ct.toNat, mode := .cmColorTemp }) }) := by
  constructor
  · intro hrange
    cases hfind : findLightByID m.rooms id with
    | none =>
      unfold handleLightUpdate
      rw [hfind]
    | some light =>
      have happ : applyFields light m.pending
          { lightID := id, isOn := none, brightness := none,
            colorTemp := some ct, colorXY := none } now =
          (light, (hasPending ((hasPending m.pending id "color_xy" now).2)
            id "color_temp" now).2, false) := by
        simp only [applyFields, stepOn, stepBrightness, stepColorTemp,
          stepColorXY]
        rw [if_pos hrange]
      unfold handleLightUpdate
      rw [hfind]
      dsimp only
      rw [happ]
      dsimp only
      rw [if_neg (by simp)]
      rw [replaceFirstLight_self m.rooms id light hfind]
  · intro hb hxy hct l hfind
    exact applyColorTemp_in_range m id ct now hxy hct l hfind
      (by omega) (by omega)

/-- Witness for C7: on the concrete sample model, the out-of-range value 0
(the bridge's mode-switch noise) leaves the rooms untouched, while the
boundary value 153 is applied to lamp A. -/
theorem colorTemp_range_policy_witness :
    (handleLightUpdate sampleModel
      { lightID := "A", isOn := none, brightness := none,
        colorTemp := some 0, colorXY := none } 0).rooms =
      sampleModel.rooms ∧
    findLightByID (handleLightUpdate sampleModel
      { lightID := "A", isOn := none, brightness := none,
        colorTemp := some 153, colorXY := none } 0).rooms "A" =
      some { lampA with color := some (invalidateCache
        { (colorOrZero lampA.color) with
          mirek := (153 : Int).toNat, mode := .cmColorTemp }) } :=
  ⟨(colorTemp_range_policy sampleModel "A" 0 0).1 (by omega),
   (colorTemp_range_policy sampleModel "A" 153 0).2 (Or.inl rfl)
     (by intro op hop; simp [newPendingTracker, sampleModel] at hop)
     (by intro op hop; simp [newPendingTracker, sampleModel] at hop)
     lampA (by decide)⟩

/-! ## C6: cross-field exclusivity of the two color modes -/

/-- C6: while a live pending `color_xy` op exists for a light, an incoming
in-range `color_temp` value for that light is dropped; symmetrically a live
pending `color_temp` op suppresses incoming `color_xy` values; and once
neither color key has a live (non-expired) entry, an in-range `color_temp`
update applies normally to the light's color state. -/
theorem crossFieldExclusivity (m : Model) (id : String) (ct : Int)
    (xq yq : ℚ) (now : Nat) :
    (∀ op, m.pending (pendingKey id "color_xy") = some op →
      ¬ now > op.expiresAt → 153 ≤ ct → ct ≤ 500 →
      (handleLightUpdate m
        { lightID := id, isOn := none, brightness := none,
          colorTemp := some ct, colorXY := none } now).rooms = m.rooms) ∧
    (∀ op, m.pending (pendingKey id "color_temp") = some op →
      ¬ now > op.expiresAt →
      (handleLightUpdate m
        { lightID := id, isOn := none, brightness := none,
          colorTemp := none, colorXY := some (xq, yq) } now).rooms =
        m.rooms) ∧
    (noLive m.pending (pendingKey id "color_xy") now →
      noLive m.pending (pendingKey id "color_temp") now →
      153 ≤ ct → ct ≤ 500 →
      ∀ l, findLightByID m.rooms id = some l →
      findLightByID (handleLightUpdate m
        { lightID := id, isOn := none, brightness := none,
          colorTemp := some ct, colorXY := none } now).rooms id =
        some { l with color := some (invalidateCache
          { (colorOrZero l.color) with
            mirek := ct.toNat, mode := .cmColorTemp }) }) := by
  refine ⟨?_, ?_, ?_⟩
  · intro op hop hlive h153 h500
    cases hfind : findLightByID m.rooms id with
    | none =>
      unfold handleLightUpdate
      rw [hfind]
    | some light =>
      have hx : hasPending m.pending id "color_xy" now = (true, m.pending) :=
        hasPending_live _ _ _ _ _ hop hlive
      have hrange : ¬ (ct < 153 ∨ ct > 500) := by omega
      have happ : applyFields light m.pending
          { lightID := id, isOn := none, brightness := none,
            colorTemp := some ct, colorXY := none } now =
          (light, (hasPending m.pending id "color_temp" now).2, false) := by
        simp only [applyFields, stepOn, stepBrightness, stepColorTemp,
          stepColorXY]
        rw [hx]
        dsimp only
        rw [if_neg hrange, if_pos rfl]
      unfold handleLightUpdate
      rw [hfind]
      dsimp only
      rw [happ]
      dsimp only
      rw [if_neg (by simp)]
      rw [replaceFirstLight_self m.rooms id light hfind]
  · intro op hop hlive
    cases hfind : findLightByID m.rooms id with
    | none =>
      unfold handleLightUpdate
      rw [hfind]
    | some light =>
      by_cases hb : (hasPending m.pending id "color_xy" now).1 = true
      · have hx2 : (hasPending m.pending id "color_xy" now).2 = m.pending :=
          hasPending_true_snd _ _ _ _ hb
        have happ : applyFields light m.pending
            { lightID := id, isOn := none, brightness := none,
              colorTemp := none, colorXY := some (xq, yq) } now =
            (light, (matchesAndClear
              ((hasPending ((hasPending m.pending id "color_xy" now).2)
                id "color_temp" now).2) id "color_xy" (.vXY xq yq)
              now).2, false) := by
          simp only [applyFields, stepOn, stepBrightness, stepColorTemp,
            stepColorXY]
          rw [if_pos hb]
        unfold handleLightUpdate
        rw [hfind]
        dsimp only
        rw [happ]
        dsimp only
        rw [if_neg (by simp)]
        rw [replaceFirstLight_self m.rooms id light hfind]
      · have hkeyne : pendingKey id "color_temp" ≠ pendingKey id "color_xy" :=
          pendingKey_ne_of_field_ne id (by decide)
        have hpres : ((hasPending m.pending id "color_xy" now).2)
            (pendingKey id "color_temp") = some op := by
          rcases hasPending_snd_cases m.pending id "color_xy" now with h | h
            <;> rw [h]
          · exact hop
          · rw [eraseKey_other _ _ _ hkeyne]
            exact hop
        have hcl : hasPending ((hasPending m.pending id "color_xy" now).2)
            id "color_temp" now =
            (true, (hasPending m.pending id "color_xy" now).2) :=
          hasPending_live _ _ _ _ _ hpres hlive
        have hbf : (hasPending m.pending id "color_xy" now).1 = false := by
          simpa using hb
        have happ : applyFields light m.pending
            { lightID := id, isOn := none, brightness := none,
              colorTemp := none, colorXY := some (xq, yq) } now =
            (light, (hasPending m.pending id "color_xy" now).2, false) := by
          simp only [applyFields, stepOn, stepBrightness, stepColorTemp,
            stepColorXY]
          rw [hbf, hcl]
          dsimp only
          rw [if_neg (by simp), if_pos rfl]
        unfold handleLightUpdate
        rw [hfind]
        dsimp only
        rw [happ]
        dsimp only
        rw [if_neg (by simp)]
        rw [replaceFirstLight_self m.rooms id light hfind]
  · intro hxy hct h153 h500 l hfind
    exact applyColorTemp_in_range m id ct now hxy hct l hfind h153 h500

/-- Witness for C6: on the concrete sample rooms, a live pending `color_xy`
op suppresses an in-range colorTemp=200, a live pending `color_temp` op
suppresses an incoming XY pair, and with no pending ops colorTemp=370 is
applied to lamp A. -/
theorem crossFieldExclusivity_witness :
    (handleLightUpdate
      { rooms := sampleModel.rooms,
        pending := addPending newPendingTracker "A" "color_xy"
          (.vXY (1/2) (3/5)) 0 }
      { lightID := "A", isOn := none, brightness := none,
        colorTemp := some 200, colorXY := none } 1).rooms =
      sampleModel.rooms ∧
    (handleLightUpdate
      { rooms := sampleModel.rooms,
        pending := addWithDirection newPendingTracker "A" "color_temp"
          (.vInt 300) .dirUp 0 }
      { lightID := "A", isOn := none, brightness := none,
        colorTemp := none, colorXY := some (1/2, 3/5) } 1).rooms =
      sampleModel.rooms ∧
    findLightByID (handleLightUpdate sampleModel
      { lightID := "A", isOn := none, brightness := none,
        colorTemp := some 370, colorXY := none } 0).rooms "A" =
      some { lampA with color := some (invalidateCache
        { (colorOrZero lampA.color) with
          mirek := (370 : Int).toNat, mode := .cmColorTemp }) } :=
  ⟨(crossFieldExclusivity
      { rooms := sampleModel.rooms,
        pending := addPending newPendingTracker "A" "color_xy"
          (.vXY (1/2) (3/5)) 0 } "A" 200 0 0 1).1
      { field := "color_xy", target := .vXY (1/2) (3/5),
        direction := .dirExact, expiresAt := 0 + pendingOpExpiry }
      rfl (by decide) (by omega) (by omega),
   (crossFieldExclusivity
      { rooms := sampleModel.rooms,
        pending := addWithDirection newPendingTracker "A" "color_temp"
          (.vInt 300) .dirUp 0 } "A" 0 (1/2) (3/5) 1).2.1
      { field := "color_temp", target := .vInt 300,
        direction := .dirUp, expiresAt := 0 + pendingOpExpiry }
      rfl (by decide),
   (crossFieldExclusivity sampleModel "A" 370 0 0 0).2.2
      (by intro op hop; simp [sampleModel, newPendingTracker] at hop)
      (by intro op hop; simp [sampleModel, newPendingTracker] at hop)
      (by omega) (by omega) lampA (by decide)⟩

/-! ## C10: frame effect of one light update -/

theorem lightFrame_refl (id : String) (l : Light) : lightFrame id l l :=
  fun _ => rfl

theorem roomFrame_refl (id : String) (r : Room) : roomFrame id r r :=
  ⟨rfl, rfl, rfl, rfl,
   List.forall₂_same.mpr (fun l _ => lightFrame_refl id l), fun _ => rfl⟩

theorem updateState_id (r : Room) : (updateState r).id = r.id := by
  unfold updateState; split <;> rfl

theorem updateState_name (r : Room) : (updateState r).name = r.name := by
  unfold updateState; split <;> rfl

theorem updateState_glid (r : Room) :
    (updateState r).groupedLightID = r.groupedLightID := by
  unfold updateState; split <;> rfl

theorem updateState_devs (r : Room) :
    (updateState r).deviceIDs = r.deviceIDs := by
  unfold updateState; split <;> rfl

theorem replaceInLights_forall₂ (ls : List Light) (id : String)
    (nl : Light) :
    List.Forall₂ (lightFrame id) ls (replaceInLights ls id nl) := by
  induction ls with
  | nil => exact .nil
  | cons l rest ih =>
    unfold replaceInLights
    by_cases h0 : l.id = id
    · rw [if_pos h0]
      exact .cons (fun hne => absurd h0 hne)
        (List.forall₂_same.mpr (fun l' _ => lightFrame_refl id l'))
    · rw [if_neg h0]
      exact .cons (lightFrame_refl id l) ih

theorem replaceFirstLight_forall₂ (rooms : List Room) (id : String)
    (nl : Light) :
    List.Forall₂ (roomFrame id) rooms (replaceFirstLight rooms id nl) := by
  induction rooms with
  | nil => exact .nil
  | cons r rest ih =>
    unfold replaceFirstLight
    by_cases hany : r.lights.any (fun l => l.id == id) = true
    · rw [if_pos hany]
      refine .cons ⟨rfl, rfl, rfl, rfl, replaceInLights_forall₂ r.lights id
        nl, ?_⟩ (List.forall₂_same.mpr (fun r' _ => roomFrame_refl id r'))
      intro hnone
      exact absurd hany (by simp [forall_ne_any_false r.lights id hnone])
    · rw [if_neg hany]
      exact .cons (roomFrame_refl id r) ih

theorem roomFrame_condUpdate (id : String) (r r1 : Room)
    (h : roomFrame id r r1) :
    roomFrame id r
      (if r1.lights.any (fun l => l.id == id) then updateState r1
        else r1) := by
  by_cases hc : r1.lights.any (fun l => l.id == id) = true
  · rw [if_pos hc]
    obtain ⟨h1, h2, h3, h4, h5, h6⟩ := h
    refine ⟨by rw [updateState_id, h1], by rw [updateState_name, h2],
      by rw [updateState_glid, h3], by rw [updateState_devs, h4],
      by rw [updateState_lights]; exact h5, ?_⟩
    intro hnone
    have hr1 : r1 = r := h6 hnone
    rw [hr1] at hc
    exact absurd hc (by simp [forall_ne_any_false r.lights id hnone])
  · rw [if_neg hc]
    exact h

theorem forall₂_map_of_imp {R : Room → Room → Prop} (g : Room → Room)
    (hg : ∀ a b, R a b → R a (g b)) :
    ∀ {as bs : List Room}, List.Forall₂ R as bs →
      List.Forall₂ R as (bs.map g) := by
  intro as bs hf
  induction hf with
  | nil => exact .nil
  | cons hab _ ih => exact .cons (hg _ _ hab) ih

/-- C10: one light-update message mutates at most the one light whose ID is
the message's `LightID` and the `AllOn`/`AnyOn` aggregates of the rooms
containing that light: every room keeps its identity fields, every light
with a different ID is left exactly as it was (pointwise over the room's
light list), and a room containing no light with that ID is returned
entirely unchanged, aggregates included. -/
theorem handleLightUpdate_frame (m : Model) (msg : LightUpdateMsg)
    (now : Nat) :
    List.Forall₂ (roomFrame msg.lightID) m.rooms
      (handleLightUpdate m msg now).rooms := by
  cases hfind : findLightByID m.rooms msg.lightID with
  | none =>
    unfold handleLightUpdate
    rw [hfind]
    exact List.forall₂_same.mpr (fun r _ => roomFrame_refl _ r)
  | some light =>
    unfold handleLightUpdate
    rw [hfind]
    dsimp only
    rcases happ : applyFields light m.pending msg now with ⟨nl, tr, upd⟩
    dsimp only
    cases upd with
    | false =>
      rw [if_neg (by simp)]
      exact replaceFirstLight_forall₂ m.rooms msg.lightID nl
    | true =>
      rw [if_pos rfl]
      exact forall₂_map_of_imp _ (roomFrame_condUpdate msg.lightID)
        (replaceFirstLight_forall₂ m.rooms msg.lightID nl)

end HueTui
